import Mathlib

/-!
Verification model of the httpfs server (quillaja/httpfs).

The request handler (`reqHandler`), the file operations (`writeFile`,
`readFile`, `deleteFile`) and the path resolution
(`filepath.Join` / `filepath.Clean`) are embedded shallowly.

Filesystem paths are modelled as lists of path segments (`Path`): the Go
code builds slash-separated strings with `filepath.Join`, which splits the
joined string at every `/` and lexically normalizes the components;
`goJoin` below performs exactly that computation in segment space
(`String.splitOn "/"` distributes over joining with `"/"`, so the
component list of the joined string is the concatenation of the component
lists of the non-empty elements).

File contents and request bodies are byte sequences, modelled as `String`.
The filesystem state (`FS`) records the regular files (an association list
from path to content; the first entry for a key is authoritative) and the
set of existing directories.  A request body carries the data that can be
read from it and a flag telling whether reading it past that data fails,
which models an `io.Copy` error mid-transfer.
-/

set_option autoImplicit false

namespace Httpfs

/-- A filesystem path as the list of its slash-separated segments. -/
abbrev Path := List String

/-- Split a character list at every `/`, accumulating the current segment
in reverse. -/
def splitSegsAux : List Char → List Char → List String
  | [], acc => [String.mk acc.reverse]
  | c :: rest, acc =>
    if c = '/' then String.mk acc.reverse :: splitSegsAux rest []
    else splitSegsAux rest (c :: acc)

/-- Component list of one path string (`String.splitOn "/"`): Go's
`filepath.Clean` splits its input at every separator.  `splitPath "" = [""]`,
`splitPath "/x" = ["", "x"]`, `splitPath "a/b" = ["a", "b"]`. -/
def splitPath (s : String) : List String :=
  splitSegsAux s.data []

/-- One step of Go's `filepath.Clean` over the component list, with the
output kept in reverse order (head = most recent segment).  Implements the
documented rules: drop empty components and `.`; an inner `..` removes the
preceding non-`..` segment; a `..` with nothing before it is dropped in a
rooted path and kept otherwise. -/
def cleanPush (rooted : Bool) (out : List String) (seg : String) : List String :=
  if seg = "" ∨ seg = "." then out
  else if seg = ".." then
    match out with
    | [] => if rooted then [] else [".."]
    | t :: rest => if t = ".." then ".." :: t :: rest else rest
  else seg :: out

/-- Fold `cleanPush` over the components. -/
def cleanSegsAux (rooted : Bool) : List String → List String → List String
  | out, [] => out.reverse
  | out, s :: rest => cleanSegsAux rooted (cleanPush rooted out s) rest

/-- Go's `filepath.Clean`, acting on a component list. -/
def cleanSegs (rooted : Bool) (comps : List String) : List String :=
  cleanSegsAux rooted [] comps

/-- Component list of a `filepath.Join`: drop empty elements, then the
components of the string joined with `/` are the concatenation of the
components of each element. -/
def goJoinComps (elems : List String) : List String :=
  (elems.filter (fun e => e ≠ "")).flatMap splitPath

/-- A component list denotes a rooted path exactly when its first
component is empty (the joined string starts with `/`). -/
def goJoinRooted (comps : List String) : Bool :=
  match comps with
  | "" :: _ => true
  | _ => false

/-- Go's `filepath.Join`: drop empty elements, join the rest with `/`,
then `Clean` the result. -/
def goJoin (elems : List String) : Path :=
  cleanSegs (goJoinRooted (goJoinComps elems)) (goJoinComps elems)

/-- `leadsUnder base p = true` iff `base` is a leading run of `p`'s
segments, i.e. `p` denotes `base` itself or something inside it. -/
def leadsUnder : List String → List String → Bool
  | [], _ => true
  | _ :: _, [] => false
  | x :: xs, y :: ys => x = y && leadsUnder xs ys

/-- A request body: the bytes that can be read from it, and whether the
read fails (with an I/O error) after delivering those bytes. -/
structure Body where
  data : String
  readErr : Bool
  deriving DecidableEq

/-- Filesystem state: regular files (association list, first entry for a
key wins) and existing directories.  The working directory (the empty
path) always exists and is a directory. -/
structure FS where
  files : List (Path × String)
  dirs : List Path
  deriving DecidableEq

/-- First content stored for a path, if any. -/
def lookupFile : List (Path × String) → Path → Option String
  | [], _ => none
  | (q, c) :: rest, p => if q = p then some c else lookupFile rest p

/-- Store content for a path (shadowing any previous entry). -/
def setFile (l : List (Path × String)) (p : Path) (c : String) : List (Path × String) :=
  (p, c) :: l

/-- Remove every entry for a path. -/
def eraseFile : List (Path × String) → Path → List (Path × String)
  | [], _ => []
  | e :: rest, p => if e.1 = p then eraseFile rest p else e :: eraseFile rest p

/-- Remove a path from the directory list. -/
def eraseDir : List Path → Path → List Path
  | [], _ => []
  | q :: rest, p => if q = p then eraseDir rest p else q :: eraseDir rest p

/-- `os.MkdirAll`, walking the components front to back: an existing file
at any component is an error (nothing is created below a file, and in a
well-formed filesystem the components before an existing file already
exist); a missing component becomes a new directory. -/
def mkdirAllAux (acc : Path) (fs : FS) : List String → Option FS
  | [] => some fs
  | s :: rest =>
    if (lookupFile fs.files (acc ++ [s])).isSome then none
    else if acc ++ [s] ∈ fs.dirs then mkdirAllAux (acc ++ [s]) fs rest
    else mkdirAllAux (acc ++ [s]) { fs with dirs := (acc ++ [s]) :: fs.dirs } rest

/-- `os.MkdirAll path dirPerm`. -/
def mkdirAll (fs : FS) (p : Path) : Option FS :=
  mkdirAllAux [] fs p

/-- The write flag distinguishing `os.O_APPEND` from `os.O_TRUNC`. -/
inductive WFlag where
  | append
  | trunc
  deriving DecidableEq

/-- Content an opened write handle starts from: empty under `O_TRUNC`
(truncation), the existing content (or empty for a fresh file) under
`O_APPEND`. -/
def wStart (flag : WFlag) (files : List (Path × String)) (path : Path) : String :=
  match flag with
  | .trunc => ""
  | .append => (lookupFile files path).getD ""

/-- `writeFile(flag, path, src)` from the source: `MkdirAll` on the parent
directory, then `OpenFile(path, flag|O_CREATE|O_WRONLY)` (which fails when
the target is an existing directory or names no file, truncates under
`O_TRUNC`, and creates a missing file), then `io.Copy(file, src)` which
writes the readable bytes and reports the body's read error if any.
Returns the new state and whether an error was returned. -/
def writeFile (flag : WFlag) (path : Path) (src : Body) (fs : FS) : FS × Bool :=
  (mkdirAll fs path.dropLast).elim (fs, true) (fun fs1 =>
    if path ∈ fs1.dirs ∨ path = [] then (fs1, true)
    else ({ fs1 with files := setFile fs1.files path (wStart flag fs1.files path ++ src.data) },
      src.readErr))

/-- `readFile(path, dest)` from the source: `os.Open` then `io.Copy` into
the destination.  Returns the bytes copied, or `none` on error (the path
names no regular file: it is absent, or it is a directory — in a
well-formed state a directory has no file entry). -/
def readFile (path : Path) (fs : FS) : Option String :=
  lookupFile fs.files path

/-- True when some file or directory lies strictly inside `p`. -/
def hasChild (fs : FS) (p : Path) : Bool :=
  fs.files.any (fun e => leadsUnder p e.1 && e.1 ≠ p) ||
    fs.dirs.any (fun q => leadsUnder p q && q ≠ p)

/-- `deleteFile(path)` from the source: `os.Remove`, which removes a
regular file or an empty directory and errors otherwise (in particular
when the path does not exist). -/
def deleteFile (path : Path) (fs : FS) : FS × Bool :=
  if (lookupFile fs.files path).isSome then
    ({ fs with files := eraseFile fs.files path }, false)
  else if path ∈ fs.dirs then
    if hasChild fs path then (fs, true)
    else ({ fs with dirs := eraseDir fs.dirs path }, false)
  else (fs, true)

/-- The server configuration consumed by the handler: the file root and
the api key → sandbox directory table. -/
structure Config where
  FileRoot : String
  APIKeys : List (String × String)
  deriving DecidableEq

/-- Map lookup in the credential table. -/
def lookupKey : List (String × String) → String → Option String
  | [], _ => none
  | (k, d) :: rest, key => if k = key then some d else lookupKey rest key

/-- HTTP method; `other` covers every method outside the four dispatched
ones (e.g. `other "PATCH"`). -/
inductive Method where
  | GET
  | POST
  | PUT
  | DELETE
  | other (name : String)
  deriving DecidableEq

/-- One request as the handler sees it: the method, the URL path, whether
`req.BasicAuth()` succeeded, the credential it extracted, and the body. -/
structure Request where
  method : Method
  path : String
  authOk : Bool
  key : String
  body : Body
  deriving DecidableEq

/-- HTTP response: status code and body (file bytes for a successful GET,
the `http.Error` message otherwise, empty on successful writes). -/
structure Response where
  status : Nat
  body : String
  deriving DecidableEq

/-- Result of one handler run: the response, the filesystem after, and
whether the deferred `req.Body.Close()` ran (the `defer` is registered
only after the authorization and root-path checks). -/
structure HandlerResult where
  resp : Response
  fs : FS
  bodyClosed : Bool
  deriving DecidableEq

/-- The `if err != nil` tail of the handler's dispatch: an operation error
becomes a 500 with the generic message for the attempted action; success
on a write or delete is a bare 200 (nothing is written to the response, so
the body is empty).  The deferred `req.Body.Close()` has run either way. -/
def opResult (msg : String) (r : FS × Bool) : HandlerResult :=
  if r.2 then ⟨⟨500, msg⟩, r.1, true⟩ else ⟨⟨200, ""⟩, r.1, true⟩

/-- The authorized part of `reqHandler`: join `FileRoot`, the tenant
directory and the URL path into `localpath` (inlined below, as the join is
pure); reject the bare root path (before the `defer req.Body.Close()` is
registered, hence `bodyClosed = false` there); then dispatch on the
method.  A successful GET streams the file bytes with an implicit 200. -/
def dispatch (cfg : Config) (userdir : String) (req : Request) (fs : FS) : HandlerResult :=
  if req.path = "/" then
    ⟨⟨400, "no file specified"⟩, fs, false⟩
  else
    match req.method with
    | .GET =>
      (readFile (goJoin [cfg.FileRoot, userdir, req.path]) fs).elim
        ⟨⟨500, "error reading file"⟩, fs, true⟩
        (fun content => ⟨⟨200, content⟩, fs, true⟩)
    | .DELETE =>
      opResult "error deleting file" (deleteFile (goJoin [cfg.FileRoot, userdir, req.path]) fs)
    | .POST =>
      opResult "error appending file"
        (writeFile .append (goJoin [cfg.FileRoot, userdir, req.path]) req.body fs)
    | .PUT =>
      opResult "error truncating file"
        (writeFile .trunc (goJoin [cfg.FileRoot, userdir, req.path]) req.body fs)
    | .other _ => ⟨⟨405, "Unsupported method"⟩, fs, true⟩

/-- `reqHandler` from the source: authorize against the credential table
(`req.BasicAuth` failure or an unknown key both yield 401, before any
filesystem access and before the body-closing `defer`), then dispatch. -/
def reqHandler (cfg : Config) (req : Request) (fs : FS) : HandlerResult :=
  match req.authOk, lookupKey cfg.APIKeys req.key with
  | true, some userdir => dispatch cfg userdir req fs
  | _, _ => ⟨⟨401, "unrecognized api key"⟩, fs, false⟩

/-! ### Basic lemmas -/

theorem str_empty_append (s : String) : "" ++ s = s := by
  cases s
  rfl

theorem str_append_empty (s : String) : s ++ "" = s := by
  cases s with
  | mk l => show String.mk (l ++ []) = String.mk l; rw [List.append_nil]

theorem leadsUnder_refl (p : List String) : leadsUnder p p = true := by
  induction p with
  | nil => rfl
  | cons x xs ih => simp [leadsUnder, ih]

theorem leadsUnder_append (a t : List String) : leadsUnder a (a ++ t) = true := by
  induction a with
  | nil => rfl
  | cons x xs ih => simp [leadsUnder, ih]

theorem leadsUnder_iff (a b : List String) :
    leadsUnder a b = true ↔ ∃ t, a ++ t = b := by
  induction a generalizing b with
  | nil => simp [leadsUnder]
  | cons x xs ih =>
    cases b with
    | nil => simp [leadsUnder]
    | cons y ys =>
      simp only [leadsUnder, Bool.and_eq_true, decide_eq_true_eq, ih]
      constructor
      · rintro ⟨rfl, t, rfl⟩
        exact ⟨t, rfl⟩
      · rintro ⟨t, h⟩
        obtain ⟨rfl, rfl⟩ : x = y ∧ xs ++ t = ys := by
          simpa using h
        exact ⟨rfl, t, rfl⟩

theorem leadsUnder_trans (a b c : List String)
    (h1 : leadsUnder a b = true) (h2 : leadsUnder b c = true) :
    leadsUnder a c = true := by
  rw [leadsUnder_iff] at h1 h2 ⊢
  obtain ⟨t1, rfl⟩ := h1
  obtain ⟨t2, rfl⟩ := h2
  exact ⟨t1 ++ t2, by rw [List.append_assoc]⟩

theorem leadsUnder_dropLast (p : List String) : leadsUnder p.dropLast p = true := by
  rw [leadsUnder_iff]
  cases h : p.getLast? with
  | none => exact ⟨[], by simp [List.getLast?_eq_none_iff.mp h]⟩
  | some x => exact ⟨[x], List.dropLast_append_getLast? x h⟩

/-! ### Association-list lemmas -/

theorem lookupFile_setFile_self (l : List (Path × String)) (p : Path) (c : String) :
    lookupFile (setFile l p c) p = some c := by
  simp [setFile, lookupFile]

theorem lookupFile_setFile_other (l : List (Path × String)) (p q : Path) (c : String)
    (h : q ≠ p) : lookupFile (setFile l p c) q = lookupFile l q := by
  rw [setFile, lookupFile, if_neg (fun hh => h hh.symm)]

theorem lookupFile_eraseFile_self (l : List (Path × String)) (p : Path) :
    lookupFile (eraseFile l p) p = none := by
  induction l with
  | nil => rfl
  | cons e rest ih =>
    by_cases h : e.1 = p
    · simpa [eraseFile, h] using ih
    · simpa [eraseFile, h, lookupFile] using ih

theorem lookupFile_eraseFile_other (l : List (Path × String)) (p q : Path) (h : q ≠ p) :
    lookupFile (eraseFile l p) q = lookupFile l q := by
  induction l with
  | nil => rfl
  | cons e rest ih =>
    by_cases he : e.1 = p
    · rw [eraseFile, if_pos he, ih, lookupFile,
        if_neg (fun hh : e.1 = q => h (he ▸ hh ▸ rfl))]
    · rw [eraseFile, if_neg he, lookupFile, lookupFile]
      by_cases hq : e.1 = q
      · rw [if_pos hq, if_pos hq]
      · rw [if_neg hq, if_neg hq, ih]

theorem mem_eraseDir (l : List Path) (p q : Path) (h : q ∈ eraseDir l p) : q ∈ l := by
  induction l with
  | nil => exact absurd h (by simp [eraseDir])
  | cons x rest ih =>
    rw [eraseDir] at h
    by_cases hx : x = p
    · rw [if_pos hx] at h
      exact List.mem_cons_of_mem x (ih h)
    · rw [if_neg hx] at h
      rcases List.mem_cons.mp h with h1 | h2
      · exact h1 ▸ List.mem_cons_self x rest
      · exact List.mem_cons_of_mem x (ih h2)

/-! ### mkdirAll lemmas -/

theorem mkdirAllAux_files (acc : Path) (fs : FS) (segs : List String) (fs' : FS)
    (h : mkdirAllAux acc fs segs = some fs') : fs'.files = fs.files := by
  induction segs generalizing acc fs with
  | nil =>
    rw [mkdirAllAux] at h
    cases h
    rfl
  | cons s rest ih =>
    rw [mkdirAllAux] at h
    by_cases hf : (lookupFile fs.files (acc ++ [s])).isSome
    · rw [if_pos hf] at h
      cases h
    · rw [if_neg hf] at h
      by_cases hd : acc ++ [s] ∈ fs.dirs
      · rw [if_pos hd] at h
        exact ih _ _ h
      · rw [if_neg hd] at h
        exact ih (acc ++ [s]) { fs with dirs := (acc ++ [s]) :: fs.dirs } h

theorem mkdirAllAux_dirs_mono (acc : Path) (fs : FS) (segs : List String) (fs' : FS)
    (h : mkdirAllAux acc fs segs = some fs') (q : Path) (hq : q ∈ fs.dirs) :
    q ∈ fs'.dirs := by
  induction segs generalizing acc fs with
  | nil =>
    rw [mkdirAllAux] at h
    cases h
    exact hq
  | cons s rest ih =>
    rw [mkdirAllAux] at h
    by_cases hf : (lookupFile fs.files (acc ++ [s])).isSome
    · rw [if_pos hf] at h
      cases h
    · rw [if_neg hf] at h
      by_cases hd : acc ++ [s] ∈ fs.dirs
      · rw [if_pos hd] at h
        exact ih _ _ h hq
      · rw [if_neg hd] at h
        exact ih _ _ h (List.mem_cons_of_mem _ hq)

theorem mkdirAllAux_dirs_of_mem (acc : Path) (fs : FS) (segs : List String) (fs' : FS)
    (h : mkdirAllAux acc fs segs = some fs') (q : Path) (hq : q ∈ fs'.dirs) :
    q ∈ fs.dirs ∨ leadsUnder q (acc ++ segs) = true := by
  induction segs generalizing acc fs with
  | nil =>
    rw [mkdirAllAux] at h
    cases h
    exact Or.inl hq
  | cons s rest ih =>
    rw [mkdirAllAux] at h
    have hstep : acc ++ s :: rest = (acc ++ [s]) ++ rest := by simp
    by_cases hf : (lookupFile fs.files (acc ++ [s])).isSome
    · rw [if_pos hf] at h
      cases h
    · rw [if_neg hf] at h
      by_cases hd : acc ++ [s] ∈ fs.dirs
      · rw [if_pos hd] at h
        rcases ih _ _ h with h1 | h2
        · exact Or.inl h1
        · exact Or.inr (hstep ▸ h2)
      · rw [if_neg hd] at h
        rcases ih (acc ++ [s]) { fs with dirs := (acc ++ [s]) :: fs.dirs } h with h1 | h2
        · rcases List.mem_cons.mp h1 with h3 | h4
          · refine Or.inr ?_
            rw [hstep, h3]
            exact leadsUnder_append _ _
          · exact Or.inl h4
        · exact Or.inr (hstep ▸ h2)

theorem mkdirAllAux_creates (acc : Path) (fs : FS) (segs : List String) (fs' : FS)
    (h : mkdirAllAux acc fs segs = some fs') (pre suf : List String)
    (hne : pre ≠ []) (hsplit : pre ++ suf = segs) :
    acc ++ pre ∈ fs'.dirs := by
  induction segs generalizing acc fs pre suf with
  | nil =>
    cases pre with
    | nil => exact absurd rfl hne
    | cons a b => cases hsplit
  | cons s rest ih =>
    rw [mkdirAllAux] at h
    cases pre with
    | nil => exact absurd rfl hne
    | cons p0 pre' =>
      have hp0 : p0 = s := by
        have := congrArg (fun l => l.head?) hsplit
        simpa using this
      have hrest : pre' ++ suf = rest := by
        have := congrArg (fun l => l.tail) hsplit
        simpa using this
      subst hp0
      have hassoc : acc ++ p0 :: pre' = (acc ++ [p0]) ++ pre' := by simp
      by_cases hf : (lookupFile fs.files (acc ++ [p0])).isSome
      · rw [if_pos hf] at h
        cases h
      · rw [if_neg hf] at h
        by_cases hd : acc ++ [p0] ∈ fs.dirs
        · rw [if_pos hd] at h
          cases pre' with
          | nil =>
            have := mkdirAllAux_dirs_mono _ _ _ _ h _ hd
            simpa using this
          | cons a b =>
            rw [hassoc]
            exact ih _ _ h _ _ (by simp) hrest
        · rw [if_neg hd] at h
          cases pre' with
          | nil =>
            have := mkdirAllAux_dirs_mono _ _ _ _ h (acc ++ [p0])
              (by exact List.mem_cons_self _ _)
            simpa using this
          | cons a b =>
            rw [hassoc]
            exact ih _ _ h _ _ (by simp) hrest

/-! ### writeFile / deleteFile lemmas -/

theorem writeFile_files_other (flag : WFlag) (path : Path) (src : Body) (fs : FS)
    (q : Path) (hq : q ≠ path) :
    lookupFile (writeFile flag path src fs).1.files q = lookupFile fs.files q := by
  rw [writeFile]
  cases hm : mkdirAll fs path.dropLast with
  | none => rfl
  | some fs1 =>
    simp only [Option.elim]
    have hfiles : fs1.files = fs.files := mkdirAllAux_files _ _ _ _ hm
    by_cases hd : path ∈ fs1.dirs ∨ path = []
    · rw [if_pos hd]
      exact congrArg (fun l => lookupFile l q) hfiles
    · rw [if_neg hd]
      show lookupFile (setFile fs1.files path _) q = _
      rw [lookupFile_setFile_other _ _ _ _ hq, hfiles]

theorem writeFile_dirs_of_mem (flag : WFlag) (path : Path) (src : Body) (fs : FS)
    (q : Path) (hq : q ∈ (writeFile flag path src fs).1.dirs) :
    q ∈ fs.dirs ∨ leadsUnder q path = true := by
  cases hm : mkdirAll fs path.dropLast with
  | none =>
    rw [writeFile, hm] at hq
    exact Or.inl hq
  | some fs1 =>
    rw [writeFile, hm] at hq
    simp only [Option.elim] at hq
    have key : q ∈ fs1.dirs → q ∈ fs.dirs ∨ leadsUnder q path = true := by
      intro hq1
      rcases mkdirAllAux_dirs_of_mem _ _ _ _ hm q hq1 with h1 | h2
      · exact Or.inl h1
      · refine Or.inr (leadsUnder_trans _ _ _ ?_ (leadsUnder_dropLast path))
        simpa using h2
    by_cases hd : path ∈ fs1.dirs ∨ path = []
    · rw [if_pos hd] at hq
      exact key hq
    · rw [if_neg hd] at hq
      exact key hq

theorem writeFile_dirs_after_mkdir (flag : WFlag) (path : Path) (src : Body) (fs fs1 : FS)
    (hmk : mkdirAll fs path.dropLast = some fs1) (q : Path) (hq : q ∈ fs1.dirs) :
    q ∈ (writeFile flag path src fs).1.dirs := by
  rw [writeFile, hmk]
  simp only [Option.elim]
  by_cases hd : path ∈ fs1.dirs ∨ path = []
  · rw [if_pos hd]
    exact hq
  · rw [if_neg hd]
    exact hq

theorem writeFile_success_trunc (path : Path) (src : Body) (fs : FS)
    (h : (writeFile .trunc path src fs).2 = false) :
    lookupFile (writeFile .trunc path src fs).1.files path = some src.data := by
  cases hm : mkdirAll fs path.dropLast with
  | none =>
    rw [writeFile, hm] at h
    cases h
  | some fs1 =>
    rw [writeFile, hm] at h ⊢
    simp only [Option.elim] at h ⊢
    by_cases hd : path ∈ fs1.dirs ∨ path = []
    · rw [if_pos hd] at h
      cases h
    · rw [if_neg hd]
      show lookupFile (setFile fs1.files path _) path = _
      rw [lookupFile_setFile_self, wStart, str_empty_append]

theorem writeFile_success_append (path : Path) (src : Body) (fs : FS)
    (h : (writeFile .append path src fs).2 = false) :
    lookupFile (writeFile .append path src fs).1.files path =
      some ((lookupFile fs.files path).getD "" ++ src.data) := by
  cases hm : mkdirAll fs path.dropLast with
  | none =>
    rw [writeFile, hm] at h
    cases h
  | some fs1 =>
    rw [writeFile, hm] at h ⊢
    simp only [Option.elim] at h ⊢
    have hfiles : fs1.files = fs.files := mkdirAllAux_files _ _ _ _ hm
    by_cases hd : path ∈ fs1.dirs ∨ path = []
    · rw [if_pos hd] at h
      cases h
    · rw [if_neg hd]
      show lookupFile (setFile fs1.files path _) path = _
      rw [lookupFile_setFile_self, wStart, hfiles]

theorem writeFile_append_preserves (path : Path) (src : Body) (fs : FS) (C : String)
    (h : lookupFile fs.files path = some C) :
    ∃ t, lookupFile (writeFile .append path src fs).1.files path = some (C ++ t) := by
  cases hm : mkdirAll fs path.dropLast with
  | none =>
    rw [writeFile, hm]
    exact ⟨"", by rw [str_append_empty]; exact h⟩
  | some fs1 =>
    rw [writeFile, hm]
    simp only [Option.elim]
    have hfiles : fs1.files = fs.files := mkdirAllAux_files _ _ _ _ hm
    by_cases hd : path ∈ fs1.dirs ∨ path = []
    · rw [if_pos hd]
      exact ⟨"", by rw [str_append_empty]; show lookupFile fs1.files path = _; rw [hfiles]; exact h⟩
    · rw [if_neg hd]
      refine ⟨src.data, ?_⟩
      show lookupFile (setFile fs1.files path _) path = _
      rw [lookupFile_setFile_self, wStart, hfiles, h]
      rfl

theorem deleteFile_files_other (path : Path) (fs : FS) (q : Path) (hq : q ≠ path) :
    lookupFile (deleteFile path fs).1.files q = lookupFile fs.files q := by
  rw [deleteFile]
  by_cases h1 : (lookupFile fs.files path).isSome
  · rw [if_pos h1]
    exact lookupFile_eraseFile_other _ _ _ hq
  · rw [if_neg h1]
    by_cases h2 : path ∈ fs.dirs
    · rw [if_pos h2]
      by_cases h3 : hasChild fs path
      · rw [if_pos h3]
      · rw [if_neg h3]
    · rw [if_neg h2]

theorem deleteFile_dirs_of_mem (path : Path) (fs : FS) (q : Path)
    (hq : q ∈ (deleteFile path fs).1.dirs) : q ∈ fs.dirs := by
  rw [deleteFile] at hq
  by_cases h1 : (lookupFile fs.files path).isSome
  · rw [if_pos h1] at hq
    exact hq
  · rw [if_neg h1] at hq
    by_cases h2 : path ∈ fs.dirs
    · rw [if_pos h2] at hq
      by_cases h3 : hasChild fs path
      · rw [if_pos h3] at hq
        exact hq
      · rw [if_neg h3] at hq
        exact mem_eraseDir _ _ _ hq
    · rw [if_neg h2] at hq
      exact hq

/-! ### Path normalization lemmas -/

/-- A component survives normalization when it is neither empty nor `.`. -/
def goodSeg (s : String) : Bool :=
  if s = "" ∨ s = "." then false else true

theorem cleanSegsAux_no_dotdot (rooted : Bool) (comps : List String) (out : List String)
    (h : ".." ∉ comps) :
    cleanSegsAux rooted out comps = out.reverse ++ comps.filter goodSeg := by
  induction comps generalizing out with
  | nil => simp [cleanSegsAux]
  | cons s rest ih =>
    have hs : s ≠ ".." := fun hh => h (hh ▸ List.mem_cons_self s rest)
    have hr : ".." ∉ rest := fun hh => h (List.mem_cons_of_mem _ hh)
    rw [cleanSegsAux, cleanPush.eq_def]
    by_cases h1 : s = "" ∨ s = "."
    · have hg : goodSeg s = false := by rw [goodSeg, if_pos h1]
      rw [if_pos h1, ih _ hr]
      simp [List.filter_cons, hg]
    · have hg : goodSeg s = true := by rw [goodSeg, if_neg h1]
      rw [if_neg h1, if_neg hs, ih _ hr]
      simp [List.filter_cons, hg]

theorem cleanSegs_no_dotdot (rooted : Bool) (comps : List String) (h : ".." ∉ comps) :
    cleanSegs rooted comps = comps.filter goodSeg := by
  rw [cleanSegs, cleanSegsAux_no_dotdot _ _ _ h]
  rfl

theorem goJoinComps_flat (l : List String) :
    (goJoinComps l).filter goodSeg = l.flatMap (fun e => (splitPath e).filter goodSeg) := by
  induction l with
  | nil => rfl
  | cons e rest ih =>
    by_cases he : e = ""
    · subst he
      have h1 : goJoinComps ("" :: rest) = goJoinComps rest := by
        rw [goJoinComps, goJoinComps, List.filter_cons]
        simp
      rw [h1, ih, List.flatMap_cons]
      have h2 : List.filter goodSeg (splitPath "") = [] := rfl
      rw [h2, List.nil_append]
    · have h1 : goJoinComps (e :: rest) = splitPath e ++ goJoinComps rest := by
        rw [goJoinComps, goJoinComps, List.filter_cons]
        simp [he, List.flatMap_cons]
      rw [h1, List.filter_append, ih, List.flatMap_cons]

theorem mem_goJoinComps (x : String) (l : List String) (hx : x ∈ goJoinComps l) :
    ∃ e ∈ l, x ∈ splitPath e := by
  rw [goJoinComps] at hx
  rcases List.mem_flatMap.mp hx with ⟨a, ha, hin⟩
  exact ⟨a, List.mem_of_mem_filter ha, hin⟩

theorem goJoin_no_dotdot3 (r d p : String)
    (hr : ".." ∉ splitPath r) (hd : ".." ∉ splitPath d) (hp : ".." ∉ splitPath p) :
    goJoin [r, d, p] = (splitPath r).filter goodSeg ++ ((splitPath d).filter goodSeg
      ++ (splitPath p).filter goodSeg) := by
  have hmem : ".." ∉ goJoinComps [r, d, p] := by
    intro hc
    rcases mem_goJoinComps _ _ hc with ⟨e, he, hin⟩
    rcases List.mem_cons.mp he with rfl | he2
    · exact hr hin
    rcases List.mem_cons.mp he2 with rfl | he3
    · exact hd hin
    rcases List.mem_cons.mp he3 with rfl | he4
    · exact hp hin
    · cases he4
  rw [goJoin, cleanSegs_no_dotdot _ _ hmem, goJoinComps_flat]
  simp [List.flatMap_cons]

theorem goJoin_no_dotdot2 (r d : String)
    (hr : ".." ∉ splitPath r) (hd : ".." ∉ splitPath d) :
    goJoin [r, d] = (splitPath r).filter goodSeg ++ (splitPath d).filter goodSeg := by
  have hmem : ".." ∉ goJoinComps [r, d] := by
    intro hc
    rcases mem_goJoinComps _ _ hc with ⟨e, he, hin⟩
    rcases List.mem_cons.mp he with rfl | he2
    · exact hr hin
    rcases List.mem_cons.mp he2 with rfl | he3
    · exact hd hin
    · cases he3
  rw [goJoin, cleanSegs_no_dotdot _ _ hmem, goJoinComps_flat]
  simp [List.flatMap_cons]

theorem goJoin_base_leads (r d p : String)
    (hr : ".." ∉ splitPath r) (hd : ".." ∉ splitPath d) (hp : ".." ∉ splitPath p) :
    leadsUnder (goJoin [r, d]) (goJoin [r, d, p]) = true := by
  rw [goJoin_no_dotdot2 _ _ hr hd, goJoin_no_dotdot3 _ _ _ hr hd hp, ← List.append_assoc]
  exact leadsUnder_append _ _

/-! ### Handler lemmas -/

theorem reqHandler_noauth (cfg : Config) (req : Request) (fs : FS)
    (h : req.authOk = false ∨ lookupKey cfg.APIKeys req.key = none) :
    reqHandler cfg req fs = ⟨⟨401, "unrecognized api key"⟩, fs, false⟩ := by
  rw [reqHandler]
  rcases h with h | h
  · rw [h]
  · rw [h]
    cases req.authOk <;> rfl

theorem reqHandler_eq_dispatch (cfg : Config) (req : Request) (fs : FS) (d : String)
    (hA : req.authOk = true) (hK : lookupKey cfg.APIKeys req.key = some d) :
    reqHandler cfg req fs = dispatch cfg d req fs := by
  rw [reqHandler, hA, hK]

theorem opResult_fs (msg : String) (r : FS × Bool) : (opResult msg r).fs = r.1 := by
  rw [opResult]
  split <;> rfl

theorem opResult_bodyClosed (msg : String) (r : FS × Bool) :
    (opResult msg r).bodyClosed = true := by
  rw [opResult]
  split <;> rfl

theorem opResult_err (msg : String) (r : FS × Bool) (h : r.2 = true) :
    opResult msg r = ⟨⟨500, msg⟩, r.1, true⟩ := by
  rw [opResult, if_pos h]

theorem opResult_ok (msg : String) (r : FS × Bool) (h : r.2 = false) :
    opResult msg r = ⟨⟨200, ""⟩, r.1, true⟩ := by
  rw [opResult, if_neg (by rw [h]; exact Bool.false_ne_true)]

theorem deleteFile_file (p : Path) (fs : FS) (h1 : (lookupFile fs.files p).isSome) :
    deleteFile p fs = ({ fs with files := eraseFile fs.files p }, false) := by
  rw [deleteFile, if_pos h1]

theorem deleteFile_none (p : Path) (fs : FS) (h1 : lookupFile fs.files p = none)
    (h2 : p ∉ fs.dirs) : deleteFile p fs = (fs, true) := by
  rw [deleteFile, if_neg (by rw [h1]; simp), if_neg h2]

/-! ### Claim theorems -/

/-- C2: for every request whose basic-auth credential is absent or
malformed (`authOk = false`) or not a key in the credential table, and for
every method, the response is 401 with body "unrecognized api key" and the
filesystem is untouched. -/
theorem auth_failure_401_no_side_effects (cfg : Config) (req : Request) (fs : FS)
    (h : req.authOk = false ∨ lookupKey cfg.APIKeys req.key = none) :
    (reqHandler cfg req fs).resp.status = 401 ∧
    (reqHandler cfg req fs).resp.body = "unrecognized api key" ∧
    (reqHandler cfg req fs).fs = fs := by
  rw [reqHandler_noauth cfg req fs h]
  exact ⟨rfl, rfl, rfl⟩

/-- Witness for C2: a DELETE with an unconfigured key gets a 401 and
leaves the filesystem containing one file unchanged. -/
theorem auth_failure_401_no_side_effects_witness :
    (reqHandler ⟨"files", [("K1", "tenantA")]⟩ ⟨.DELETE, "/notes.txt", true, "K2", ⟨"", false⟩⟩
        ⟨[(["files", "tenantA", "notes.txt"], "hello")], []⟩).resp.status = 401 ∧
    (reqHandler ⟨"files", [("K1", "tenantA")]⟩ ⟨.DELETE, "/notes.txt", true, "K2", ⟨"", false⟩⟩
        ⟨[(["files", "tenantA", "notes.txt"], "hello")], []⟩).resp.body =
      "unrecognized api key" ∧
    (reqHandler ⟨"files", [("K1", "tenantA")]⟩ ⟨.DELETE, "/notes.txt", true, "K2", ⟨"", false⟩⟩
        ⟨[(["files", "tenantA", "notes.txt"], "hello")], []⟩).fs =
      ⟨[(["files", "tenantA", "notes.txt"], "hello")], []⟩ :=
  auth_failure_401_no_side_effects _ _ _ (Or.inr (by decide))

/-- C7: for every authenticated request whose URL path is exactly "/",
and for every method (including ones outside the four dispatched), the
response is 400 with body "no file specified" and no file operation is
performed; the check precedes method dispatch (the result does not depend
on the method). -/
theorem root_path_400 (cfg : Config) (req : Request) (fs : FS) (d : String)
    (hA : req.authOk = true) (hK : lookupKey cfg.APIKeys req.key = some d)
    (hP : req.path = "/") :
    (reqHandler cfg req fs).resp.status = 400 ∧
    (reqHandler cfg req fs).resp.body = "no file specified" ∧
    (reqHandler cfg req fs).fs = fs := by
  rw [reqHandler_eq_dispatch cfg req fs d hA hK, dispatch, if_pos hP]
  exact ⟨rfl, rfl, rfl⟩

/-- Witness for C7: an authenticated PATCH on "/" gets 400 (not 405). -/
theorem root_path_400_witness :
    (reqHandler ⟨"files", [("K1", "tenantA")]⟩ ⟨.other "PATCH", "/", true, "K1", ⟨"", false⟩⟩
        ⟨[], []⟩).resp.status = 400 ∧
    (reqHandler ⟨"files", [("K1", "tenantA")]⟩ ⟨.other "PATCH", "/", true, "K1", ⟨"", false⟩⟩
        ⟨[], []⟩).resp.body = "no file specified" ∧
    (reqHandler ⟨"files", [("K1", "tenantA")]⟩ ⟨.other "PATCH", "/", true, "K1", ⟨"", false⟩⟩
        ⟨[], []⟩).fs = ⟨[], []⟩ :=
  root_path_400 _ _ _ "tenantA" rfl (by decide) rfl

/-- C8 counterexample: on an auth-failure outcome (401) the request body
is NOT closed before the handler returns — the `defer req.Body.Close()`
is registered only after the authorization check, so the claim that the
body is drained/closed on every outcome fails. -/
theorem auth_failure_body_not_closed :
    (reqHandler ⟨"files", [("K1", "d")]⟩ ⟨.GET, "/f.txt", true, "K2", ⟨"", false⟩⟩
        ⟨[], []⟩).resp.status = 401 ∧
    (reqHandler ⟨"files", [("K1", "d")]⟩ ⟨.GET, "/f.txt", true, "K2", ⟨"", false⟩⟩
        ⟨[], []⟩).bodyClosed = false := by
  decide

/-- C8 (amended): the deferred `req.Body.Close()` runs on every outcome
reached after method-dispatch setup (GET/POST/PUT/DELETE success or
failure, and 405), but the 401 auth-failure and 400 root-path returns
happen before the `defer` is registered, so the body is not closed there;
the handler itself never drains the body (POST/PUT read it to end as a
side effect of `io.Copy`, other methods do not read it). -/
theorem body_close_amended (cfg : Config) (req : Request) (fs : FS) :
    ((req.authOk = false ∨ lookupKey cfg.APIKeys req.key = none) →
      (reqHandler cfg req fs).bodyClosed = false) ∧
    (∀ d, req.authOk = true → lookupKey cfg.APIKeys req.key = some d → req.path = "/" →
      (reqHandler cfg req fs).bodyClosed = false) ∧
    (∀ d, req.authOk = true → lookupKey cfg.APIKeys req.key = some d → req.path ≠ "/" →
      (reqHandler cfg req fs).bodyClosed = true) := by
  refine ⟨fun h => by rw [reqHandler_noauth _ _ _ h], ?_, ?_⟩
  · intro d hA hK hP
    rw [reqHandler_eq_dispatch _ _ _ d hA hK, dispatch, if_pos hP]
  · intro d hA hK hP
    rw [reqHandler_eq_dispatch _ _ _ d hA hK, dispatch, if_neg hP]
    cases req.method with
    | GET =>
      cases readFile (goJoin [cfg.FileRoot, d, req.path]) fs <;>
        simp only [Option.elim]
    | DELETE => exact opResult_bodyClosed _ _
    | POST => exact opResult_bodyClosed _ _
    | PUT => exact opResult_bodyClosed _ _
    | other name => rfl

/-- Witness for C8 (amended): an authed GET on a missing file (a 500
outcome) runs the deferred close. -/
theorem body_close_amended_witness :
    (reqHandler ⟨"files", [("K1", "d")]⟩ ⟨.GET, "/f.txt", true, "K1", ⟨"", false⟩⟩
        ⟨[], []⟩).bodyClosed = true :=
  (body_close_amended ⟨"files", [("K1", "d")]⟩ ⟨.GET, "/f.txt", true, "K1", ⟨"", false⟩⟩
      ⟨[], []⟩).2.2 "d" rfl (by decide) (by decide)

/-- C1 counterexample: with file root "files" and sandbox "d", an
authenticated PUT on URL path "/../../../evil" resolves (by the lexical
`filepath.Join` normalization) to "../evil" — outside the "files/d"
prefix, indeed outside "files" — is NOT rejected with 400 (it answers
200), and creates a file at the escaped path. -/
theorem escape_put_not_rejected :
    goJoin ["files", "d", "/../../../evil"] = ["..", "evil"] ∧
    leadsUnder (goJoin ["files", "d"]) (goJoin ["files", "d", "/../../../evil"]) = false ∧
    (reqHandler ⟨"files", [("K1", "d")]⟩ ⟨.PUT, "/../../../evil", true, "K1", ⟨"x", false⟩⟩
        ⟨[], []⟩).resp.status ≠ 400 ∧
    (reqHandler ⟨"files", [("K1", "d")]⟩ ⟨.PUT, "/../../../evil", true, "K1", ⟨"x", false⟩⟩
        ⟨[], []⟩).resp.status = 200 ∧
    lookupFile (reqHandler ⟨"files", [("K1", "d")]⟩
        ⟨.PUT, "/../../../evil", true, "K1", ⟨"x", false⟩⟩ ⟨[], []⟩).fs.files
      ["..", "evil"] = some "x" := by
  decide

/-- C1 (amended): the handler performs no post-normalization containment
check and rejects only the bare root path, so containment holds only when
no `..` segment is in play: if neither the file root, nor the sandbox
directory, nor the URL path contains a `..` segment, the resolved path
lies under `file_root/sandbox_dir`, every file-content change is at
exactly the resolved path, and every directory the request adds is an
ancestor of the resolved path.  (A URL path with enough `..` segments
escapes the prefix and is processed anyway — see the counterexample.) -/
theorem containment_amended (cfg : Config) (req : Request) (fs : FS) (d : String)
    (hA : req.authOk = true) (hK : lookupKey cfg.APIKeys req.key = some d)
    (hroot : ".." ∉ splitPath cfg.FileRoot) (hdir : ".." ∉ splitPath d)
    (hpath : ".." ∉ splitPath req.path) :
    leadsUnder (goJoin [cfg.FileRoot, d]) (goJoin [cfg.FileRoot, d, req.path]) = true ∧
    (∀ q, q ≠ goJoin [cfg.FileRoot, d, req.path] →
      lookupFile (reqHandler cfg req fs).fs.files q = lookupFile fs.files q) ∧
    (∀ q, q ∈ (reqHandler cfg req fs).fs.dirs →
      q ∈ fs.dirs ∨ leadsUnder q (goJoin [cfg.FileRoot, d, req.path]) = true) := by
  rw [reqHandler_eq_dispatch cfg req fs d hA hK]
  refine ⟨goJoin_base_leads _ _ _ hroot hdir hpath, ?_, ?_⟩
  · intro q hq
    rw [dispatch]
    by_cases hP : req.path = "/"
    · rw [if_pos hP]
    · rw [if_neg hP]
      cases req.method with
      | GET =>
        cases readFile (goJoin [cfg.FileRoot, d, req.path]) fs <;>
          simp only [Option.elim]
      | DELETE =>
        rw [opResult_fs]
        exact deleteFile_files_other _ _ _ hq
      | POST =>
        rw [opResult_fs]
        exact writeFile_files_other _ _ _ _ _ hq
      | PUT =>
        rw [opResult_fs]
        exact writeFile_files_other _ _ _ _ _ hq
      | other name => rfl
  · intro q hq
    rw [dispatch] at hq
    by_cases hP : req.path = "/"
    · rw [if_pos hP] at hq
      exact Or.inl hq
    · rw [if_neg hP] at hq
      cases hM : req.method with
      | GET =>
        rw [hM] at hq
        rcases hr : readFile (goJoin [cfg.FileRoot, d, req.path]) fs with _ | c <;>
          rw [hr] at hq <;> simp only [Option.elim] at hq <;> exact Or.inl hq
      | DELETE =>
        rw [hM, opResult_fs] at hq
        exact Or.inl (deleteFile_dirs_of_mem _ _ _ hq)
      | POST =>
        rw [hM, opResult_fs] at hq
        exact writeFile_dirs_of_mem _ _ _ _ _ hq
      | PUT =>
        rw [hM, opResult_fs] at hq
        exact writeFile_dirs_of_mem _ _ _ _ _ hq
      | other name =>
        rw [hM] at hq
        exact Or.inl hq

/-- Witness for C1 (amended): a normal authed PUT stays inside the
sandbox prefix. -/
theorem containment_amended_witness :
    leadsUnder (goJoin ["files", "tenantA"]) (goJoin ["files", "tenantA", "/notes.txt"]) = true :=
  (containment_amended ⟨"files", [("K1", "tenantA")]⟩
      ⟨.PUT, "/notes.txt", true, "K1", ⟨"hello", false⟩⟩ ⟨[], []⟩ "tenantA"
      rfl (by decide) (by decide) (by decide) (by decide)).1

/-- C3: for every authenticated request naming a non-root path, GET
performs Read and on success responds 200 with the file bytes as body and
an unchanged filesystem; POST performs AppendWrite with the request body
as source, PUT TruncateWrite, DELETE Delete, each responding 200 with an
empty body on success; any other method responds 405 and performs no file
operation. -/
theorem method_dispatch (cfg : Config) (req : Request) (fs : FS) (d : String)
    (hA : req.authOk = true) (hK : lookupKey cfg.APIKeys req.key = some d)
    (hP : req.path ≠ "/") :
    (req.method = .GET → ∀ c, readFile (goJoin [cfg.FileRoot, d, req.path]) fs = some c →
      reqHandler cfg req fs = ⟨⟨200, c⟩, fs, true⟩) ∧
    (req.method = .POST →
      (reqHandler cfg req fs).fs =
        (writeFile .append (goJoin [cfg.FileRoot, d, req.path]) req.body fs).1 ∧
      ((writeFile .append (goJoin [cfg.FileRoot, d, req.path]) req.body fs).2 = false →
        (reqHandler cfg req fs).resp = ⟨200, ""⟩)) ∧
    (req.method = .PUT →
      (reqHandler cfg req fs).fs =
        (writeFile .trunc (goJoin [cfg.FileRoot, d, req.path]) req.body fs).1 ∧
      ((writeFile .trunc (goJoin [cfg.FileRoot, d, req.path]) req.body fs).2 = false →
        (reqHandler cfg req fs).resp = ⟨200, ""⟩)) ∧
    (req.method = .DELETE →
      (reqHandler cfg req fs).fs = (deleteFile (goJoin [cfg.FileRoot, d, req.path]) fs).1 ∧
      ((deleteFile (goJoin [cfg.FileRoot, d, req.path]) fs).2 = false →
        (reqHandler cfg req fs).resp = ⟨200, ""⟩)) ∧
    (∀ name, req.method = .other name →
      (reqHandler cfg req fs).resp = ⟨405, "Unsupported method"⟩ ∧
      (reqHandler cfg req fs).fs = fs) := by
  rw [reqHandler_eq_dispatch cfg req fs d hA hK]
  refine ⟨?_, ?_, ?_, ?_, ?_⟩
  · intro hM c hc
    rw [dispatch, if_neg hP, hM, hc]
    rfl
  · intro hM
    rw [dispatch, if_neg hP, hM]
    exact ⟨opResult_fs _ _, fun hw => by rw [opResult_ok _ _ hw]⟩
  · intro hM
    rw [dispatch, if_neg hP, hM]
    exact ⟨opResult_fs _ _, fun hw => by rw [opResult_ok _ _ hw]⟩
  · intro hM
    rw [dispatch, if_neg hP, hM]
    exact ⟨opResult_fs _ _, fun hw => by rw [opResult_ok _ _ hw]⟩
  · intro name hM
    rw [dispatch, if_neg hP, hM]
    exact ⟨rfl, rfl⟩

/-- Witness for C3: a GET of an existing file returns 200 with its
bytes. -/
theorem method_dispatch_witness :
    reqHandler ⟨"files", [("K1", "tenantA")]⟩ ⟨.GET, "/notes.txt", true, "K1", ⟨"", false⟩⟩
        ⟨[(["files", "tenantA", "notes.txt"], "hello")], []⟩ =
      ⟨⟨200, "hello"⟩, ⟨[(["files", "tenantA", "notes.txt"], "hello")], []⟩, true⟩ :=
  (method_dispatch ⟨"files", [("K1", "tenantA")]⟩
      ⟨.GET, "/notes.txt", true, "K1", ⟨"", false⟩⟩
      ⟨[(["files", "tenantA", "notes.txt"], "hello")], []⟩ "tenantA"
      rfl (by decide) (by decide)).1 rfl "hello" (by decide)

/-- C4: a successful PUT of body B to path P (TruncateWrite discards any
prior content) followed by a GET of P with the same credential returns
exactly B, whatever the filesystem held before. -/
theorem put_get_roundtrip (cfg : Config) (fs : FS) (d k P B : String) (b2 : Body)
    (hK : lookupKey cfg.APIKeys k = some d) (hP : P ≠ "/")
    (h200 : (reqHandler cfg ⟨.PUT, P, true, k, ⟨B, false⟩⟩ fs).resp.status = 200) :
    reqHandler cfg ⟨.GET, P, true, k, b2⟩ (reqHandler cfg ⟨.PUT, P, true, k, ⟨B, false⟩⟩ fs).fs =
      ⟨⟨200, B⟩, (reqHandler cfg ⟨.PUT, P, true, k, ⟨B, false⟩⟩ fs).fs, true⟩ := by
  have hdisp : reqHandler cfg ⟨.PUT, P, true, k, ⟨B, false⟩⟩ fs =
      opResult "error truncating file"
        (writeFile .trunc (goJoin [cfg.FileRoot, d, P]) ⟨B, false⟩ fs) := by
    rw [reqHandler_eq_dispatch _ _ _ d rfl hK, dispatch, if_neg hP]
  have hw : (writeFile .trunc (goJoin [cfg.FileRoot, d, P]) ⟨B, false⟩ fs).2 = false := by
    cases h2 : (writeFile .trunc (goJoin [cfg.FileRoot, d, P]) ⟨B, false⟩ fs).2 with
    | false => rfl
    | true =>
      rw [hdisp, opResult_err _ _ h2] at h200
      have h500 : (500 : Nat) = 200 := h200
      exact absurd h500 (by decide)
  have hlook : lookupFile
      (writeFile .trunc (goJoin [cfg.FileRoot, d, P]) ⟨B, false⟩ fs).1.files
      (goJoin [cfg.FileRoot, d, P]) = some B :=
    writeFile_success_trunc _ _ _ hw
  rw [hdisp, opResult_ok _ _ hw]
  rw [reqHandler_eq_dispatch _ _ _ d rfl hK, dispatch, if_neg hP]
  have hread : readFile (goJoin [cfg.FileRoot, d, P])
      (writeFile .trunc (goJoin [cfg.FileRoot, d, P]) ⟨B, false⟩ fs).1 = some B := hlook
  rw [hread]
  rfl

/-- Witness for C4: PUT "hello" then GET it back on an empty start
state. -/
theorem put_get_roundtrip_witness :
    reqHandler ⟨"files", [("K1", "tenantA")]⟩ ⟨.GET, "/notes.txt", true, "K1", ⟨"", false⟩⟩
        (reqHandler ⟨"files", [("K1", "tenantA")]⟩
          ⟨.PUT, "/notes.txt", true, "K1", ⟨"hello", false⟩⟩ ⟨[], []⟩).fs =
      ⟨⟨200, "hello"⟩,
        (reqHandler ⟨"files", [("K1", "tenantA")]⟩
          ⟨.PUT, "/notes.txt", true, "K1", ⟨"hello", false⟩⟩ ⟨[], []⟩).fs, true⟩ :=
  put_get_roundtrip ⟨"files", [("K1", "tenantA")]⟩ ⟨[], []⟩ "tenantA" "K1" "/notes.txt"
    "hello" ⟨"", false⟩ (by decide) (by decide) (by decide)

/-- C5: AppendWrite never deletes or overwrites existing content (after
any POST the old content is a prefix of the new), a successful POST of
body B appends exactly B, and the concrete sequence POST "a", POST "b",
GET on a fresh path yields "ab". -/
theorem append_accumulates (cfg : Config) (req : Request) (fs : FS) (d : String)
    (hA : req.authOk = true) (hK : lookupKey cfg.APIKeys req.key = some d)
    (hP : req.path ≠ "/") (hM : req.method = .POST) :
    (∀ C, lookupFile fs.files (goJoin [cfg.FileRoot, d, req.path]) = some C →
      ∃ t, lookupFile (reqHandler cfg req fs).fs.files (goJoin [cfg.FileRoot, d, req.path]) =
        some (C ++ t)) ∧
    ((reqHandler cfg req fs).resp.status = 200 →
      lookupFile (reqHandler cfg req fs).fs.files (goJoin [cfg.FileRoot, d, req.path]) =
        some ((lookupFile fs.files (goJoin [cfg.FileRoot, d, req.path])).getD "" ++
          req.body.data)) ∧
    (reqHandler ⟨"files", [("K1", "d")]⟩ ⟨.GET, "/f.txt", true, "K1", ⟨"", false⟩⟩
        (reqHandler ⟨"files", [("K1", "d")]⟩ ⟨.POST, "/f.txt", true, "K1", ⟨"b", false⟩⟩
          (reqHandler ⟨"files", [("K1", "d")]⟩ ⟨.POST, "/f.txt", true, "K1", ⟨"a", false⟩⟩
            ⟨[], []⟩).fs).fs).resp = ⟨200, "ab"⟩ := by
  have hdisp : reqHandler cfg req fs =
      opResult "error appending file"
        (writeFile .append (goJoin [cfg.FileRoot, d, req.path]) req.body fs) := by
    rw [reqHandler_eq_dispatch _ _ _ d hA hK, dispatch, if_neg hP, hM]
  refine ⟨?_, ?_, by decide⟩
  · intro C hC
    rw [hdisp, opResult_fs]
    exact writeFile_append_preserves _ _ _ _ hC
  · intro h200
    cases h2 : (writeFile .append (goJoin [cfg.FileRoot, d, req.path]) req.body fs).2 with
    | true =>
      rw [hdisp, opResult_err _ _ h2] at h200
      have h500 : (500 : Nat) = 200 := h200
      exact absurd h500 (by decide)
    | false =>
      rw [hdisp, opResult_fs]
      exact writeFile_success_append _ _ _ h2

/-- Witness for C5: POST "b" onto a file holding "a" appends. -/
theorem append_accumulates_witness :
    lookupFile (reqHandler ⟨"files", [("K1", "d")]⟩ ⟨.POST, "/f.txt", true, "K1", ⟨"b", false⟩⟩
        ⟨[(["files", "d", "f.txt"], "a")], [["files", "d"], ["files"]]⟩).fs.files
      (goJoin ["files", "d", "/f.txt"]) =
      some ((lookupFile (⟨[(["files", "d", "f.txt"], "a")],
        [["files", "d"], ["files"]]⟩ : FS).files (goJoin ["files", "d", "/f.txt"])).getD ""
        ++ "b") :=
  (append_accumulates ⟨"files", [("K1", "d")]⟩ ⟨.POST, "/f.txt", true, "K1", ⟨"b", false⟩⟩
      ⟨[(["files", "d", "f.txt"], "a")], [["files", "d"], ["files"]]⟩ "d"
      rfl (by decide) (by decide) rfl).2.1 (by decide)

/-- C6: every file-operation failure is a 500 whose body is exactly the
fixed generic message for the attempted operation — a constant
independent of the underlying error and of the resolved path, so neither
can leak; DELETE of a nonexistent path fails, and a repeated DELETE of a
just-deleted file answers 500, never 200. -/
theorem failure_500_generic (cfg : Config) (req : Request) (fs : FS) (d : String)
    (hA : req.authOk = true) (hK : lookupKey cfg.APIKeys req.key = some d)
    (hP : req.path ≠ "/") :
    (req.method = .GET → readFile (goJoin [cfg.FileRoot, d, req.path]) fs = none →
      reqHandler cfg req fs = ⟨⟨500, "error reading file"⟩, fs, true⟩) ∧
    (req.method = .POST →
      (writeFile .append (goJoin [cfg.FileRoot, d, req.path]) req.body fs).2 = true →
      (reqHandler cfg req fs).resp = ⟨500, "error appending file"⟩) ∧
    (req.method = .PUT →
      (writeFile .trunc (goJoin [cfg.FileRoot, d, req.path]) req.body fs).2 = true →
      (reqHandler cfg req fs).resp = ⟨500, "error truncating file"⟩) ∧
    (req.method = .DELETE →
      (deleteFile (goJoin [cfg.FileRoot, d, req.path]) fs).2 = true →
      (reqHandler cfg req fs).resp = ⟨500, "error deleting file"⟩) ∧
    (lookupFile fs.files (goJoin [cfg.FileRoot, d, req.path]) = none →
      goJoin [cfg.FileRoot, d, req.path] ∉ fs.dirs →
      (deleteFile (goJoin [cfg.FileRoot, d, req.path]) fs).2 = true) ∧
    (req.method = .DELETE →
      (deleteFile (goJoin [cfg.FileRoot, d, req.path]) fs).2 = false →
      goJoin [cfg.FileRoot, d, req.path] ∉ fs.dirs →
      (reqHandler cfg req (reqHandler cfg req fs).fs).resp = ⟨500, "error deleting file"⟩) := by
  refine ⟨?_, ?_, ?_, ?_, ?_, ?_⟩
  · intro hM hr
    rw [reqHandler_eq_dispatch _ _ _ d hA hK, dispatch, if_neg hP, hM, hr]
    rfl
  · intro hM hw
    rw [reqHandler_eq_dispatch _ _ _ d hA hK, dispatch, if_neg hP, hM, opResult_err _ _ hw]
  · intro hM hw
    rw [reqHandler_eq_dispatch _ _ _ d hA hK, dispatch, if_neg hP, hM, opResult_err _ _ hw]
  · intro hM hw
    rw [reqHandler_eq_dispatch _ _ _ d hA hK, dispatch, if_neg hP, hM, opResult_err _ _ hw]
  · intro h1 h2
    rw [deleteFile_none _ _ h1 h2]
  · intro hM hsucc hnd
    have hdel1 : (lookupFile fs.files (goJoin [cfg.FileRoot, d, req.path])).isSome := by
      by_contra hns
      rw [deleteFile_none _ _ (Option.not_isSome_iff_eq_none.mp hns) hnd] at hsucc
      have htf : true = false := hsucc
      exact absurd htf (by decide)
    have hfs1 : (reqHandler cfg req fs).fs =
        { fs with files := eraseFile fs.files (goJoin [cfg.FileRoot, d, req.path]) } := by
      rw [reqHandler_eq_dispatch _ _ _ d hA hK, dispatch, if_neg hP, hM,
        deleteFile_file _ _ hdel1, opResult_fs]
    rw [hfs1, reqHandler_eq_dispatch _ _ _ d hA hK, dispatch, if_neg hP, hM,
      deleteFile_none (goJoin [cfg.FileRoot, d, req.path])
        { fs with files := eraseFile fs.files (goJoin [cfg.FileRoot, d, req.path]) }
        (lookupFile_eraseFile_self _ _) hnd,
      opResult_err _ _ rfl]

/-- Witness for C6: a GET on an empty filesystem yields the generic 500
read error. -/
theorem failure_500_generic_witness :
    reqHandler ⟨"files", [("K1", "d")]⟩ ⟨.GET, "/nope.txt", true, "K1", ⟨"", false⟩⟩ ⟨[], []⟩ =
      ⟨⟨500, "error reading file"⟩, ⟨[], []⟩, true⟩ :=
  (failure_500_generic ⟨"files", [("K1", "d")]⟩ ⟨.GET, "/nope.txt", true, "K1", ⟨"", false⟩⟩
      ⟨[], []⟩ "d" rfl (by decide) (by decide)).1 rfl (by decide)

/-- C9: writeFile creates all missing parent directories (`MkdirAll`)
before opening the target, so a POST or PUT that fails after the
directories were created — at open (the target is an existing directory
or names no file) or at copying the body — answers 500 while every
directory `MkdirAll` created (all ancestors of the target) remains in the
final filesystem. -/
theorem mkdir_survives_write_failure (cfg : Config) (req : Request) (fs fs1 : FS) (d : String)
    (hA : req.authOk = true) (hK : lookupKey cfg.APIKeys req.key = some d)
    (hP : req.path ≠ "/")
    (hmk : mkdirAll fs (goJoin [cfg.FileRoot, d, req.path]).dropLast = some fs1) :
    (req.method = .POST →
      (writeFile .append (goJoin [cfg.FileRoot, d, req.path]) req.body fs).2 = true →
      (reqHandler cfg req fs).resp = ⟨500, "error appending file"⟩ ∧
      ∀ pre, pre ≠ [] →
        leadsUnder pre (goJoin [cfg.FileRoot, d, req.path]).dropLast = true →
        pre ∈ (reqHandler cfg req fs).fs.dirs) ∧
    (req.method = .PUT →
      (writeFile .trunc (goJoin [cfg.FileRoot, d, req.path]) req.body fs).2 = true →
      (reqHandler cfg req fs).resp = ⟨500, "error truncating file"⟩ ∧
      ∀ pre, pre ≠ [] →
        leadsUnder pre (goJoin [cfg.FileRoot, d, req.path]).dropLast = true →
        pre ∈ (reqHandler cfg req fs).fs.dirs) := by
  have hpre : ∀ pre, pre ≠ [] →
      leadsUnder pre (goJoin [cfg.FileRoot, d, req.path]).dropLast = true →
      pre ∈ fs1.dirs := by
    intro pre hne hlead
    rcases (leadsUnder_iff _ _).mp hlead with ⟨suf, hsuf⟩
    have hmk2 : mkdirAllAux [] fs (goJoin [cfg.FileRoot, d, req.path]).dropLast = some fs1 := hmk
    have := mkdirAllAux_creates _ _ _ _ hmk2 pre suf hne hsuf
    simpa using this
  constructor
  · intro hM hfail
    have hdisp : reqHandler cfg req fs =
        opResult "error appending file"
          (writeFile .append (goJoin [cfg.FileRoot, d, req.path]) req.body fs) := by
      rw [reqHandler_eq_dispatch _ _ _ d hA hK, dispatch, if_neg hP, hM]
    refine ⟨by rw [hdisp, opResult_err _ _ hfail], ?_⟩
    intro pre hne hlead
    rw [hdisp, opResult_err _ _ hfail]
    show pre ∈ (writeFile .append (goJoin [cfg.FileRoot, d, req.path]) req.body fs).1.dirs
    exact writeFile_dirs_after_mkdir _ _ _ _ _ hmk pre (hpre pre hne hlead)
  · intro hM hfail
    have hdisp : reqHandler cfg req fs =
        opResult "error truncating file"
          (writeFile .trunc (goJoin [cfg.FileRoot, d, req.path]) req.body fs) := by
      rw [reqHandler_eq_dispatch _ _ _ d hA hK, dispatch, if_neg hP, hM]
    refine ⟨by rw [hdisp, opResult_err _ _ hfail], ?_⟩
    intro pre hne hlead
    rw [hdisp, opResult_err _ _ hfail]
    show pre ∈ (writeFile .trunc (goJoin [cfg.FileRoot, d, req.path]) req.body fs).1.dirs
    exact writeFile_dirs_after_mkdir _ _ _ _ _ hmk pre (hpre pre hne hlead)

/-- Witness for C9: a POST to a deep fresh path with a failing body
answers 500. -/
theorem mkdir_survives_write_failure_witness :
    (reqHandler ⟨"files", [("K1", "d")]⟩ ⟨.POST, "/a/b/c.txt", true, "K1", ⟨"x", true⟩⟩
        ⟨[], []⟩).resp = ⟨500, "error appending file"⟩ :=
  ((mkdir_survives_write_failure ⟨"files", [("K1", "d")]⟩
      ⟨.POST, "/a/b/c.txt", true, "K1", ⟨"x", true⟩⟩ ⟨[], []⟩
      ⟨[], [["files", "d", "a", "b"], ["files", "d", "a"], ["files", "d"], ["files"]]⟩ "d"
      rfl (by decide) (by decide) (by decide)).1 rfl (by decide)).1

/-- C10: a PUT with an empty body (to a fresh path or over an existing
file) succeeds with 200 and leaves the file empty, and a POST with an
empty body to a nonexistent path creates an empty file and answers 200:
copying zero bytes is a successful write. -/
theorem empty_body_write (cfg : Config) (fs fs1 : FS) (k d P : String)
    (hK : lookupKey cfg.APIKeys k = some d) (hP : P ≠ "/")
    (hmk : mkdirAll fs (goJoin [cfg.FileRoot, d, P]).dropLast = some fs1)
    (hd1 : goJoin [cfg.FileRoot, d, P] ∉ fs1.dirs)
    (hne : goJoin [cfg.FileRoot, d, P] ≠ []) :
    ((reqHandler cfg ⟨.PUT, P, true, k, ⟨"", false⟩⟩ fs).resp = ⟨200, ""⟩ ∧
      lookupFile (reqHandler cfg ⟨.PUT, P, true, k, ⟨"", false⟩⟩ fs).fs.files
        (goJoin [cfg.FileRoot, d, P]) = some "") ∧
    (lookupFile fs.files (goJoin [cfg.FileRoot, d, P]) = none →
      (reqHandler cfg ⟨.POST, P, true, k, ⟨"", false⟩⟩ fs).resp = ⟨200, ""⟩ ∧
      lookupFile (reqHandler cfg ⟨.POST, P, true, k, ⟨"", false⟩⟩ fs).fs.files
        (goJoin [cfg.FileRoot, d, P]) = some "") := by
  have hwt : (writeFile .trunc (goJoin [cfg.FileRoot, d, P]) ⟨"", false⟩ fs).2 = false := by
    rw [writeFile, hmk]
    simp only [Option.elim]
    rw [if_neg (not_or.mpr ⟨hd1, hne⟩)]
  have hwa : (writeFile .append (goJoin [cfg.FileRoot, d, P]) ⟨"", false⟩ fs).2 = false := by
    rw [writeFile, hmk]
    simp only [Option.elim]
    rw [if_neg (not_or.mpr ⟨hd1, hne⟩)]
  have hdispt : reqHandler cfg ⟨.PUT, P, true, k, ⟨"", false⟩⟩ fs =
      opResult "error truncating file"
        (writeFile .trunc (goJoin [cfg.FileRoot, d, P]) ⟨"", false⟩ fs) := by
    rw [reqHandler_eq_dispatch _ _ _ d rfl hK, dispatch, if_neg hP]
  have hdispa : reqHandler cfg ⟨.POST, P, true, k, ⟨"", false⟩⟩ fs =
      opResult "error appending file"
        (writeFile .append (goJoin [cfg.FileRoot, d, P]) ⟨"", false⟩ fs) := by
    rw [reqHandler_eq_dispatch _ _ _ d rfl hK, dispatch, if_neg hP]
  refine ⟨⟨?_, ?_⟩, ?_⟩
  · rw [hdispt, opResult_ok _ _ hwt]
  · rw [hdispt, opResult_fs]
    exact writeFile_success_trunc _ _ _ hwt
  · intro hnone
    refine ⟨by rw [hdispa, opResult_ok _ _ hwa], ?_⟩
    rw [hdispa, opResult_fs]
    have h3 := writeFile_success_append (goJoin [cfg.FileRoot, d, P]) ⟨"", false⟩ fs hwa
    rw [hnone, Option.getD_none, str_empty_append] at h3
    exact h3

/-- Witness for C10: PUT with empty body creates an empty file on an
empty start state. -/
theorem empty_body_write_witness :
    (reqHandler ⟨"files", [("K1", "d")]⟩ ⟨.PUT, "/e.txt", true, "K1", ⟨"", false⟩⟩
        ⟨[], []⟩).resp = ⟨200, ""⟩ ∧
    lookupFile (reqHandler ⟨"files", [("K1", "d")]⟩ ⟨.PUT, "/e.txt", true, "K1", ⟨"", false⟩⟩
        ⟨[], []⟩).fs.files (goJoin ["files", "d", "/e.txt"]) = some "" :=
  (empty_body_write ⟨"files", [("K1", "d")]⟩ ⟨[], []⟩
      ⟨[], [["files", "d"], ["files"]]⟩ "K1" "d" "/e.txt"
      (by decide) (by decide) (by decide) (by decide) (by decide)).1

end Httpfs
